import Mathlib

/-!
Verification development for the medical-report RAG backend
(`src/rag_backend.py`): text chunking, vector retrieval, and regex-driven
extraction of lab parameters with reference-bound classification.

Modelling conventions: texts are `List Char`; Python float values are
modelled as exact rationals (the parsed numerals are short decimal
strings, whose order comparisons agree with the exact rational ones);
fallible Python code (exceptions) returns `Except`.  The regexes of
`_extract_medical_parameters` are built from character classes that are
pairwise disjoint at every decision point, so Python's leftmost-greedy
matching coincides with a position-by-position maximal-munch scan, which
is what the matchers below implement.
-/

/-- Python exceptions the modelled code can raise: `ValueError`, raised
by `range()` on a zero step and by `float()` on a malformed numeral. -/
inductive PyError
  | valueError
deriving DecidableEq, Repr

/-- Python ASCII whitespace, as removed by `str.strip()` and matched by
the regex class `\s`. -/
def isPySpace (c : Char) : Bool :=
  c == ' ' || c == '\t' || c == '\n' || c == '\r' ||
    c == Char.ofNat 11 || c == Char.ofNat 12

/-- Characters of the regex class `[:\s]` (the separator between a
parameter name and its value in the value pattern). -/
def isColonSpace (c : Char) : Bool := c == ':' || isPySpace c

/-- Characters of the regex class `[\d.,]` (numeric tokens). -/
def isValTok (c : Char) : Bool := c.isDigit || c == '.' || c == ','

/-- `str.strip()`: drop leading and trailing whitespace. -/
def strip (l : List Char) : List Char :=
  ((l.dropWhile isPySpace).reverse.dropWhile isPySpace).reverse

/-- `MedicalRAGBackend.chunk_text` (rag_backend.py lines 45-55): slide a
window of `chunk_size` characters over the text with stride
`chunk_size - overlap`; strip each window and keep the non-empty ones.
The source performs no validation: a zero stride makes Python's `range`
raise `ValueError`, and a negative stride makes `range` empty, so the
loop body never runs. -/
def chunk_text (text : List Char) (chunk_size overlap : Nat) :
    Except PyError (List (List Char)) :=
  if chunk_size = overlap then .error .valueError
  else if chunk_size < overlap then .ok []
  else
    let step := chunk_size - overlap
    .ok (((List.range ((text.length + step - 1) / step)).map
      (fun j => strip ((text.drop (j * step)).take chunk_size))).filter
        (fun c => !c.isEmpty))

/-- ASCII lower-casing, modelling `re.IGNORECASE` comparison of the
(ASCII) literal parts of the patterns. -/
def lowerChar (c : Char) : Char :=
  if 'A' ≤ c ∧ c ≤ 'Z' then Char.ofNat (c.toNat + 32) else c

/-- Case-insensitive literal match at the head of `s`; on success returns
the text actually consumed (as it appears in `s`) and the rest. -/
def matchCI : List Char → List Char → Option (List Char × List Char)
  | [], s => some ([], s)
  | _ :: _, [] => none
  | p :: ps, c :: cs =>
    if lowerChar p = lowerChar c then
      (matchCI ps cs).map (fun t => (c :: t.1, t.2))
    else none

/-- `re.search` position scan: the first position `i` (left to right) at
which the matcher `m` succeeds, together with the matcher's result. -/
def findFrom {α : Type} (m : List Char → Option α) : List Char → Option (Nat × α)
  | [] => (m []).map (fun a => (0, a))
  | c :: cs =>
    match m (c :: cs) with
    | some a => some (0, a)
    | none => (findFrom m cs).map (fun p => (p.1 + 1, p.2))

/-- One entry of the `known_params` catalogue.  The dict key `name` is
interpolated raw into the value regex, so for `ALT (SGPT)` and
`AST (SGOT)` the parenthesised part becomes a capturing group: `pre` is
the literal before that group and `grp` the group's literal (group 1 of
the compiled pattern, which shifts the numeric token to group 2). -/
structure ParamPattern where
  name : List Char
  unit : List Char
  pre : List Char
  grp : Option (List Char)
deriving DecidableEq, Repr

/-- Match of the value pattern
`rf"{name}\s*[:\s]+([\d.,]+)\s*{re.escape(unit)}"` at the head of `s`:
returns `group(1)` (the numeric token, or the embedded name group when
the name itself contains one) and the rest of the text after the match
end.  `\s*[:\s]+` consumes the maximal run of `[:\s]` characters, which
must be non-empty. -/
def matchValueAt (p : ParamPattern) (s : List Char) :
    Option (List Char × List Char) :=
  match matchCI p.pre s with
  | none => none
  | some pr =>
    match (match p.grp with
           | none => some (([] : List Char), pr.2)
           | some lit => matchCI lit pr.2) with
    | none => none
    | some gr =>
      let sep := gr.2.takeWhile isColonSpace
      let r3 := gr.2.dropWhile isColonSpace
      if sep.isEmpty then none
      else
        let tok := r3.takeWhile isValTok
        let r4 := r3.dropWhile isValTok
        if tok.isEmpty then none
        else
          match matchCI p.unit (r4.dropWhile isPySpace) with
          | none => none
          | some ur =>
            some ((match p.grp with | none => tok | some _ => gr.1), ur.2)

/-- Match of the range pattern `([\d.,]+)\s*[–-]\s*([\d.,]+)` at the head
of `s`: both captured groups. -/
def matchRangeAt (s : List Char) : Option (List Char × List Char) :=
  let a := s.takeWhile isValTok
  let r1 := s.dropWhile isValTok
  if a.isEmpty then none
  else
    match r1.dropWhile isPySpace with
    | [] => none
    | d :: r3 =>
      if d = '–' ∨ d = '-' then
        let b := (r3.dropWhile isPySpace).takeWhile isValTok
        if b.isEmpty then none else some (a, b)
      else none

/-- Match of `<\s*([\d.,]+)` at the head of `s`: the captured group. -/
def matchLtAt (s : List Char) : Option (List Char) :=
  match s with
  | '<' :: r1 =>
    let a := (r1.dropWhile isPySpace).takeWhile isValTok
    if a.isEmpty then none else some a
  | _ => none

/-- Match of `>\s*([\d.,]+)` at the head of `s`: the captured group. -/
def matchGtAt (s : List Char) : Option (List Char) :=
  match s with
  | '>' :: r1 =>
    let a := (r1.dropWhile isPySpace).takeWhile isValTok
    if a.isEmpty then none else some a
  | _ => none

/-- `re.search(r'([\d.,]+)\s*[–-]\s*([\d.,]+)', s)`: groups of the
leftmost match. -/
def rangeSearch (s : List Char) : Option (List Char × List Char) :=
  (findFrom matchRangeAt s).map (fun p => p.2)

/-- `re.search(r'<\s*([\d.,]+)', s)`: group 1 of the leftmost match. -/
def ltSearch (s : List Char) : Option (List Char) :=
  (findFrom matchLtAt s).map (fun p => p.2)

/-- `re.search(r'>\s*([\d.,]+)', s)`: group 1 of the leftmost match. -/
def gtSearch (s : List Char) : Option (List Char) :=
  (findFrom matchGtAt s).map (fun p => p.2)

/-- `str.replace(",", "")`. -/
def stripCommas (s : List Char) : List Char := s.filter (fun c => c ≠ ',')

/-- Numeric value of a decimal digit character. -/
def digitVal (c : Char) : Nat := c.toNat - 48

/-- Value of a string of decimal digits. -/
def natOfDigits (l : List Char) : Nat :=
  l.foldl (fun acc c => 10 * acc + digitVal c) 0

/-- Python `float()` on the comma-stripped numeric tokens this code
feeds it (digits and dots): `none` models `ValueError`.  Accepts
`123`, `1.5`, `1.`, `.5`; rejects `""`, `"."`, and anything with a
second dot or a non-digit. -/
def pyFloat (s : List Char) : Option ℚ :=
  let ip := s.takeWhile Char.isDigit
  match s.dropWhile Char.isDigit with
  | [] => if ip.isEmpty then none else some (natOfDigits ip)
  | '.' :: fp =>
    if fp.all Char.isDigit && !(ip.isEmpty && fp.isEmpty) then
      some ((natOfDigits ip : ℚ) + (natOfDigits fp : ℚ) / ((10 : ℚ) ^ fp.length))
    else none
  | _ => none

/-- The `status` strings of the source, as an enumeration. -/
inductive Status
  | Low
  | Normal
  | High
deriving DecidableEq, Repr

/-- Case 1 of the classification (rag_backend.py lines 126-137): against
a `min – max` range, `Low` if value < min, else `High` if value > max,
else the initial `Normal`. -/
def rangeStatus (v mn mx : ℚ) : Status :=
  if v < mn then .Low else if v > mx then .High else .Normal

/-- Case 2 (lines 140-148): against an upper bound `< X`, `High` if
value ≥ X, else `Normal`. -/
def ltStatus (v r : ℚ) : Status :=
  if v ≥ r then .High else .Normal

/-- Case 3 (lines 151-159): against a lower bound `> X`, `Low` if
value ≤ X, else `Normal`. -/
def gtStatus (v r : ℚ) : Status :=
  if v ≤ r then .Low else .Normal

/-- One extracted parameter dict (name / value / range / status). -/
structure Entry where
  name : List Char
  value : List Char
  range : List Char
  status : Status
deriving DecidableEq, Repr

/-- Reference-bound lookup in the 300-character window `w` after a value
match (rag_backend.py lines 122-159): a `min–max` range first; otherwise,
if the window contains the character `<`, the `< X` pattern; otherwise,
if it contains `>`, the `> X` pattern.  Returns the formatted reference
string and the status, `none` when no reference was found, and an error
when `float()` fails on a captured token or on `value_str`. -/
def classifyRef (p : ParamPattern) (value_str w : List Char) :
    Except PyError (Option (List Char × Status)) :=
  match rangeSearch w with
  | some ab =>
    match pyFloat (stripCommas ab.1), pyFloat (stripCommas ab.2),
        pyFloat value_str with
    | some mn, some mx, some v =>
      .ok (some (ab.1 ++ (' ' :: '–' :: ' ' :: ab.2) ++ (' ' :: p.unit),
        rangeStatus v mn mx))
    | _, _, _ => .error .valueError
  | none =>
    if w.contains '<' then
      match ltSearch w with
      | some a =>
        match pyFloat (stripCommas a), pyFloat value_str with
        | some r, some v =>
          .ok (some (('<' :: ' ' :: a) ++ (' ' :: p.unit), ltStatus v r))
        | _, _ => .error .valueError
      | none => .ok none
    else if w.contains '>' then
      match gtSearch w with
      | some a =>
        match pyFloat (stripCommas a), pyFloat value_str with
        | some r, some v =>
          .ok (some (('>' :: ' ' :: a) ++ (' ' :: p.unit), gtStatus v r))
        | _, _ => .error .valueError
      | none => .ok none
    else .ok none

/-- The loop body of `_extract_medical_parameters` for one catalogue
entry: search the context for the value pattern; on a match, strip
commas from `group(1)`, look for a reference bound in the 300 characters
after the match end, and build the entry dict; `none` when the parameter
is omitted (no value match or no reference). -/
def extractParam (p : ParamPattern) (ctx : List Char) :
    Except PyError (Option Entry) :=
  match findFrom (matchValueAt p) ctx with
  | none => .ok none
  | some m =>
    let value_str := stripCommas m.2.1
    match classifyRef p value_str (m.2.2.take 300) with
    | .error e => .error e
    | .ok none => .ok none
    | .ok (some rs) =>
      .ok (some { name := p.name, value := value_str ++ (' ' :: p.unit),
                  range := rs.1, status := rs.2 })

/-- The `for name, unit in known_params.items()` loop: parameters are
appended in catalogue order; a raised exception aborts the whole call. -/
def processParams : List ParamPattern → List Char → Except PyError (List Entry)
  | [], _ => .ok []
  | p :: ps, ctx =>
    match extractParam p ctx with
    | .error e => .error e
    | .ok none => processParams ps ctx
    | .ok (some entry) =>
      match processParams ps ctx with
      | .error e => .error e
      | .ok rest => .ok (entry :: rest)

/-- A catalogue entry whose name contains no regex metacharacters. -/
def mkParam (n u : String) : ParamPattern :=
  { name := n.data, unit := u.data, pre := n.data, grp := none }

/-- The `known_params` dict (rag_backend.py lines 90-106), in insertion
order.  `ALT (SGPT)` and `AST (SGOT)` are interpolated raw into the
pattern, so their parenthesised parts are capturing groups. -/
def known_params : List ParamPattern :=
  [ mkParam "Hemoglobin" "g/dL",
    mkParam "RBC Count" "million/µL",
    mkParam "WBC Count" "/µL",
    mkParam "Platelet Count" "/µL",
    mkParam "Hematocrit" "%",
    mkParam "Total Bilirubin" "mg/dL",
    { name := "ALT (SGPT)".data, unit := "U/L".data,
      pre := "ALT ".data, grp := some ("SGPT".data) },
    { name := "AST (SGOT)".data, unit := "U/L".data,
      pre := "AST ".data, grp := some ("SGOT".data) },
    mkParam "Alkaline Phosphatase" "U/L",
    mkParam "Total Cholesterol" "mg/dL",
    mkParam "LDL Cholesterol" "mg/dL",
    mkParam "HDL Cholesterol" "mg/dL",
    mkParam "Triglycerides" "mg/dL",
    mkParam "Fasting Blood Sugar" "mg/dL",
    mkParam "HbA1c" "%" ]

/-- `MedicalRAGBackend._extract_medical_parameters` (rag_backend.py
lines 86-169). -/
def _extract_medical_parameters (ctx : List Char) : Except PyError (List Entry) :=
  processParams known_params ctx

/-- Squared Euclidean (L2) distance, the metric of `faiss.IndexFlatL2`. -/
def l2sq (q v : List ℚ) : ℚ :=
  ((q.zip v).map (fun p => (p.1 - p.2) * (p.1 - p.2))).sum

/-- Comparison of (index, distance) pairs by distance. -/
def distLE (a b : Nat × ℚ) : Prop := a.2 ≤ b.2

instance : DecidableRel distLE :=
  fun a b => inferInstanceAs (Decidable (a.2 ≤ b.2))

instance : IsTotal (Nat × ℚ) distLE := ⟨fun a b => le_total a.2 b.2⟩

instance : IsTrans (Nat × ℚ) distLE := ⟨fun _ _ _ => le_trans⟩

/-- Modelled from the spec: the `VectorIndex.search` contract (§4.3).
The index implementation is the external `faiss.IndexFlatL2` library,
not code under src/; it performs exact brute-force nearest-neighbour
search by squared L2 distance, modelled here as sorting the stored
vectors' (index, distance) pairs by distance and taking the first
`min(k, numberOfStoredVectors)` (none when `k ≤ 0`). -/
def searchIndex (xs : List (List ℚ)) (q : List ℚ) (k : Int) : List (Nat × ℚ) :=
  (((xs.map (l2sq q)).enum).insertionSort distLE).take
    (min k (xs.length : Int)).toNat

/-- The two fields of session state of `MedicalRAGBackend` that retrieval
reads: `self.vector_store` (`None` until `build_vector_store` ran) and
`self.chunks`. -/
structure Backend where
  vector_store : Option (List (List ℚ))
  chunks : List (List Char)

/-- `MedicalRAGBackend.retrieve_relevant_chunks` (rag_backend.py lines
74-81): an unbuilt store short-circuits to `[]`; otherwise the query is
encoded (the encoded query vector is taken as input here, the embedding
model being an external collaborator) and the store is searched with
`min(top_k, len(self.chunks))`, returning the chunks at the reported
indices. -/
def retrieve_relevant_chunks (b : Backend) (query_embedding : List ℚ)
    (top_k : Int) : List (List Char) :=
  match b.vector_store with
  | none => []
  | some xs =>
    (searchIndex xs query_embedding (min top_k (b.chunks.length : Int))).map
      (fun p => b.chunks.getD p.1 [])


/-! ## Helper lemmas -/

theorem dropWhile_eq_self_of_all (p : Char → Bool) (l : List Char)
    (h : ∀ c ∈ l, p c = false) : l.dropWhile p = l := by
  cases l with
  | nil => rfl
  | cons c cs => simp [List.dropWhile_cons, h c (List.mem_cons_self c cs)]

theorem strip_eq_self (l : List Char) (h : ∀ c ∈ l, isPySpace c = false) :
    strip l = l := by
  unfold strip
  rw [dropWhile_eq_self_of_all _ _ h,
    dropWhile_eq_self_of_all _ _ (fun c hc => h c (List.mem_reverse.mp hc)),
    List.reverse_reverse]

theorem findFrom_leftmost {α : Type} (m : List Char → Option α) (s : List Char)
    (i : Nat) (a : α) (h : findFrom m s = some (i, a)) :
    m (s.drop i) = some a ∧ ∀ j, j < i → m (s.drop j) = none := by
  induction s generalizing i with
  | nil =>
    unfold findFrom at h
    cases hm : m [] with
    | none => rw [hm] at h; simp at h
    | some a0 =>
      rw [hm] at h
      simp only [Option.map_some', Option.some.injEq, Prod.mk.injEq] at h
      obtain ⟨h1, h2⟩ := h
      subst h1; subst h2
      exact ⟨hm, fun j hj => absurd hj (by omega)⟩
  | cons c cs ih =>
    unfold findFrom at h
    cases hm : m (c :: cs) with
    | some a0 =>
      rw [hm] at h
      simp only [Option.some.injEq, Prod.mk.injEq] at h
      obtain ⟨h1, h2⟩ := h
      subst h1; subst h2
      exact ⟨hm, fun j hj => absurd hj (by omega)⟩
    | none =>
      rw [hm] at h
      cases hf : findFrom m cs with
      | none => rw [hf] at h; simp at h
      | some q =>
        rw [hf] at h
        simp only [Option.map_some', Option.some.injEq, Prod.mk.injEq] at h
        obtain ⟨h1, h2⟩ := h
        obtain ⟨ih1, ih2⟩ := ih q.1 (h2 ▸ hf : findFrom m cs = some (q.1, a))
        constructor
        · rw [← h1]
          simpa using ih1
        · intro j hj
          cases j with
          | zero => simpa using hm
          | succ j' =>
            have : j' < q.1 := by omega
            simpa using ih2 j' this

theorem extractParam_name (p : ParamPattern) (ctx : List Char) (e : Entry)
    (h : extractParam p ctx = .ok (some e)) : e.name = p.name := by
  unfold extractParam at h
  split at h
  · exact absurd h (by simp)
  · dsimp only at h
    split at h
    · exact absurd h (by simp)
    · exact absurd h (by simp)
    · simp only [Except.ok.injEq, Option.some.injEq] at h
      rw [← h]

theorem processParams_names_sublist (ps : List ParamPattern) (ctx : List Char)
    (l : List Entry) (h : processParams ps ctx = .ok l) :
    (l.map Entry.name).Sublist (ps.map ParamPattern.name) := by
  induction ps generalizing l with
  | nil =>
    unfold processParams at h
    simp only [Except.ok.injEq] at h
    subst h; simp
  | cons p ps ih =>
    unfold processParams at h
    cases hE : extractParam p ctx with
    | error e => rw [hE] at h; exact absurd h (by simp)
    | ok oe =>
      rw [hE] at h
      cases oe with
      | none => exact (ih l h).cons _
      | some entry =>
        cases hR : processParams ps ctx with
        | error e => rw [hR] at h; exact absurd h (by simp)
        | ok rest =>
          rw [hR] at h
          simp only [Except.ok.injEq] at h
          subst h
          simp only [List.map_cons, extractParam_name p ctx entry hE]
          exact (ih rest hR).cons₂ _

/-! ## Claim theorems -/

/-- C1: for a min–max range the status is Low iff value < min and High
iff value > max (strict comparisons, Normal otherwise); for an
upper-bound form `< X` the status is High iff value ≥ X, and for a
lower-bound form `> X` the status is Low iff value ≤ X, so a value
exactly equal to an upper bound is classified High and one exactly
equal to a lower bound is classified Low. -/
theorem status_boundary_semantics (v mn mx x y : ℚ) (h : mn ≤ mx) :
    (rangeStatus v mn mx = .Low ↔ v < mn)
      ∧ (rangeStatus v mn mx = .High ↔ mx < v)
      ∧ (rangeStatus v mn mx = .Normal ↔ mn ≤ v ∧ v ≤ mx)
      ∧ (ltStatus v x = .High ↔ x ≤ v)
      ∧ (ltStatus v x = .Normal ↔ v < x)
      ∧ (gtStatus v y = .Low ↔ v ≤ y)
      ∧ (gtStatus v y = .Normal ↔ y < v) := by
  unfold rangeStatus ltStatus gtStatus
  refine ⟨?_, ?_, ?_, ?_, ?_, ?_, ?_⟩ <;>
    · split_ifs <;> simp_all <;> linarith

theorem status_boundary_semantics_witness :
    (1 : ℚ) ≤ 3
      ∧ (rangeStatus 2 1 3 = .Normal ↔ (1 : ℚ) ≤ 2 ∧ (2 : ℚ) ≤ 3)
      ∧ (ltStatus 100 100 = .High ↔ (100 : ℚ) ≤ 100)
      ∧ (gtStatus 5 5 = .Low ↔ (5 : ℚ) ≤ 5) :=
  ⟨by norm_num, (status_boundary_semantics 2 1 3 5 0 (by norm_num)).2.2.1,
    (status_boundary_semantics 100 1 3 100 0 (by norm_num)).2.2.2.1,
    (status_boundary_semantics 5 1 3 0 5 (by norm_num)).2.2.2.2.2.1⟩

/-- C2: the source has no overlap/chunkSize validation.  Evaluating the
chunker at `chunk_size = 3`, `overlap = 4` it returns the chunk sequence
`[]` (instead of failing with an InvalidConfiguration error), and at
`overlap = 3` it raises Python's generic `ValueError` from `range()`
(arg 3 must not be zero), again not an InvalidConfiguration error. -/
theorem chunker_missing_overlap_validation :
    chunk_text "abcdef".data 3 4 = .ok []
      ∧ chunk_text "abcdef".data 3 3 = .error .valueError :=
  ⟨rfl, rfl⟩

/-- C4 counterexample: calling retrieval on a backend whose vector store
was never built silently returns the empty list; no IndexNotBuilt error
(or any error) is signalled, contradicting the claim that it fails
loudly. -/
theorem search_unbuilt_claim_counterexample :
    retrieve_relevant_chunks { vector_store := none, chunks := ["abc".data] }
      [0] 5 = [] := rfl

/-- C4 amended: calling retrieval before the vector index has been built
silently returns an empty chunk list (the `if not self.vector_store`
guard); no error is signalled. -/
theorem search_unbuilt_silent_empty (b : Backend) (qv : List ℚ) (k : Int)
    (h : b.vector_store = none) :
    retrieve_relevant_chunks b qv k = [] := by
  unfold retrieve_relevant_chunks
  rw [h]

theorem search_unbuilt_silent_empty_witness :
    (Backend.mk none []).vector_store = none
      ∧ retrieve_relevant_chunks (Backend.mk none []) [1] 3 = [] :=
  ⟨rfl, search_unbuilt_silent_empty (Backend.mk none []) [1] 3 rfl⟩

/-- C5: for an index holding the vectors `xs`, a search with `k`
greater than the number of stored vectors returns exactly that many
results, a search with `k ≤ 0` returns the empty result (not an error),
and the returned results are ordered by non-decreasing L2 distance. -/
theorem search_clamp_order (xs : List (List ℚ)) (q : List ℚ) (k : Int) :
    ((xs.length : Int) < k → (searchIndex xs q k).length = xs.length)
      ∧ (k ≤ 0 → searchIndex xs q k = [])
      ∧ (searchIndex xs q k).Pairwise distLE := by
  refine ⟨?_, ?_, ?_⟩
  · intro hk
    unfold searchIndex
    rw [List.length_take, List.length_insertionSort, List.enum_length,
      List.length_map]
    omega
  · intro hk
    unfold searchIndex
    have h0 : (min k (xs.length : Int)).toNat = 0 := by omega
    rw [h0, List.take_zero]
  · exact List.Pairwise.sublist (List.take_sublist _ _)
      (List.sorted_insertionSort distLE _)

theorem search_clamp_order_witness :
    (searchIndex [[(0 : ℚ)], [1]] [0] 3).length = 2
      ∧ searchIndex [[(0 : ℚ)], [1]] [0] (-1) = []
      ∧ (searchIndex [[(0 : ℚ)], [1]] [0] 3).Pairwise distLE :=
  ⟨(search_clamp_order [[(0 : ℚ)], [1]] [0] 3).1 (by decide),
    (search_clamp_order [[(0 : ℚ)], [1]] [0] (-1)).2.1 (by decide),
    (search_clamp_order [[(0 : ℚ)], [1]] [0] 3).2.2⟩

/-- C8: for empty input text (and a valid configuration
`overlap < chunkSize`) the chunker returns an empty chunk sequence and
does not signal an error. -/
theorem empty_text_empty_chunks (cs ov : Nat) (h : ov < cs) :
    chunk_text [] cs ov = .ok [] := by
  have h1 : ¬ cs = ov := by omega
  have h2 : ¬ cs < ov := by omega
  simp [chunk_text, h1, h2, Nat.div_eq_of_lt (show cs - ov - 1 < cs - ov by omega)]

theorem empty_text_empty_chunks_witness :
    (100 : Nat) < 800 ∧ chunk_text [] 800 100 = .ok [] :=
  ⟨by decide, empty_text_empty_chunks 800 100 (by decide)⟩

/-- C9: parameter extraction is deterministic — for every fixed input
text, two runs of the extraction produce identical results (the
embedded extraction is a pure function of the context; the source uses
only deterministic regex matching and the fixed dict iteration order,
and reads no other state). -/
theorem extraction_deterministic :
    ∀ ctx : List Char,
      _extract_medical_parameters ctx = _extract_medical_parameters ctx :=
  fun _ => rfl

/-- C6 counterexample: in the context below, the 300-character window
after the matched Hemoglobin value is `" <x > 5.0"`, which contains no
range form and no upper-bound form `< X` but does contain the
lower-bound form `> 5.0`.  The claim says the lower bound is then used
for classification; the code instead takes the `"<" in remaining_text`
branch (the bare `<` character), finds no `< X` match there, and omits
the parameter entirely — extraction returns the empty list. -/
theorem lower_bound_priority_counterexample :
    findFrom (matchValueAt (mkParam "Hemoglobin" "g/dL"))
        "Hemoglobin: 13.5 g/dL <x > 5.0".data
      = some (0, ("13.5".data, " <x > 5.0".data))
      ∧ rangeSearch " <x > 5.0".data = none
      ∧ ltSearch " <x > 5.0".data = none
      ∧ gtSearch " <x > 5.0".data = some ("5.0".data)
      ∧ _extract_medical_parameters "Hemoglobin: 13.5 g/dL <x > 5.0".data
          = .ok [] :=
  ⟨rfl, rfl, rfl, rfl, rfl⟩

/-- C6 amended: the window after the matched value is examined in the
fixed priority order range form, then — gated on the presence of the
character `<` (not of a full upper-bound form) — the `< X` form, then —
gated on the presence of `>` — the `> X` form; whenever the window has
no range form and no `<` character but contains a lower-bound form
`> X`, that lower bound is the one used for classification. -/
theorem lower_bound_priority_amended (p : ParamPattern) (ctx : List Char)
    (i : Nat) (g1 rest g : List Char) (x v : ℚ)
    (hm : findFrom (matchValueAt p) ctx = some (i, (g1, rest)))
    (hr : rangeSearch (rest.take 300) = none)
    (hlt : (rest.take 300).contains '<' = false)
    (hgtc : (rest.take 300).contains '>' = true)
    (hg : gtSearch (rest.take 300) = some g)
    (hx : pyFloat (stripCommas g) = some x)
    (hv : pyFloat (stripCommas g1) = some v) :
    extractParam p ctx =
      .ok (some { name := p.name, value := stripCommas g1 ++ (' ' :: p.unit),
                  range := ('>' :: ' ' :: g) ++ (' ' :: p.unit),
                  status := gtStatus v x }) := by
  have hcr : classifyRef p (stripCommas g1) (rest.take 300)
      = .ok (some (('>' :: ' ' :: g) ++ (' ' :: p.unit), gtStatus v x)) := by
    unfold classifyRef
    rw [hr]
    simp only [hlt, hgtc, Bool.false_eq_true, if_false, if_true, hg, hx, hv]
  unfold extractParam
  rw [hm]
  dsimp only
  rw [hcr]

theorem lower_bound_priority_amended_witness :
    (findFrom (matchValueAt (mkParam "Hemoglobin" "g/dL"))
        "Hemoglobin: 13.5 g/dL > 12.0 g/dL".data
      = some (0, ("13.5".data, " > 12.0 g/dL".data))
      ∧ rangeSearch (" > 12.0 g/dL".data.take 300) = none
      ∧ (" > 12.0 g/dL".data.take 300).contains '<' = false
      ∧ (" > 12.0 g/dL".data.take 300).contains '>' = true
      ∧ gtSearch (" > 12.0 g/dL".data.take 300) = some ("12.0".data)
      ∧ pyFloat (stripCommas "12.0".data) = some 12
      ∧ pyFloat (stripCommas "13.5".data) = some (27 / 2))
      ∧ extractParam (mkParam "Hemoglobin" "g/dL")
          "Hemoglobin: 13.5 g/dL > 12.0 g/dL".data =
        .ok (some { name := "Hemoglobin".data,
                    value := stripCommas "13.5".data ++ (' ' :: "g/dL".data),
                    range := ('>' :: ' ' :: "12.0".data) ++ (' ' :: "g/dL".data),
                    status := gtStatus (27 / 2) 12 }) :=
  by
  have h12 : pyFloat (stripCommas "12.0".data)
      = some (((12 : ℕ) : ℚ) + ((0 : ℕ) : ℚ) / (10 : ℚ) ^ 1) := rfl
  have h12n : pyFloat (stripCommas "12.0".data) = some 12 := by
    rw [h12]; simp only [Option.some.injEq]; norm_num
  have h135 : pyFloat (stripCommas "13.5".data)
      = some (((13 : ℕ) : ℚ) + ((5 : ℕ) : ℚ) / (10 : ℚ) ^ 1) := rfl
  have h135n : pyFloat (stripCommas "13.5".data) = some (27 / 2) := by
    rw [h135]; simp only [Option.some.injEq]; norm_num
  exact ⟨⟨rfl, rfl, rfl, rfl, rfl, h12n, h135n⟩,
    lower_bound_priority_amended (mkParam "Hemoglobin" "g/dL") _ 0
      "13.5".data " > 12.0 g/dL".data "12.0".data 12 (27 / 2)
      rfl rfl rfl rfl rfl h12n h135n⟩

/-- C7: when the value pattern of a catalogue parameter matches but the
300-character lookahead window contains none of the three reference
forms, the parameter is omitted (no entry), no error is raised, and the
extraction of the remaining parameters proceeds exactly as if this
parameter were absent from the catalogue. -/
theorem no_reference_omission (p : ParamPattern) (ctx : List Char)
    (i : Nat) (g1 rest : List Char)
    (hm : findFrom (matchValueAt p) ctx = some (i, (g1, rest)))
    (hr : rangeSearch (rest.take 300) = none)
    (hl : ltSearch (rest.take 300) = none)
    (hg : gtSearch (rest.take 300) = none) :
    extractParam p ctx = .ok none
      ∧ ∀ ps : List ParamPattern,
          processParams (p :: ps) ctx = processParams ps ctx := by
  have hcr : classifyRef p (stripCommas g1) (rest.take 300) = .ok none := by
    unfold classifyRef
    rw [hr]
    cases hc : (rest.take 300).contains '<' with
    | true => simp [hc, hl]
    | false =>
      cases hc2 : (rest.take 300).contains '>' with
      | true => simp [hc, hc2, hg]
      | false => simp [hc, hc2]
  have h1 : extractParam p ctx = .ok none := by
    unfold extractParam
    rw [hm]
    dsimp only
    rw [hcr]
  exact ⟨h1, fun ps => by simp [processParams, h1]⟩

theorem no_reference_omission_witness :
    (findFrom (matchValueAt (mkParam "Hemoglobin" "g/dL"))
        "Hemoglobin: 13.5 g/dL all good".data
      = some (0, ("13.5".data, " all good".data))
      ∧ rangeSearch (" all good".data.take 300) = none
      ∧ ltSearch (" all good".data.take 300) = none
      ∧ gtSearch (" all good".data.take 300) = none)
      ∧ extractParam (mkParam "Hemoglobin" "g/dL")
          "Hemoglobin: 13.5 g/dL all good".data = .ok none
      ∧ ∀ ps : List ParamPattern,
          processParams (mkParam "Hemoglobin" "g/dL" :: ps)
              "Hemoglobin: 13.5 g/dL all good".data
            = processParams ps "Hemoglobin: 13.5 g/dL all good".data :=
  ⟨⟨rfl, rfl, rfl, rfl⟩,
    no_reference_omission (mkParam "Hemoglobin" "g/dL") _ 0
      "13.5".data " all good".data rfl rfl rfl rfl⟩

/-- C10: the extraction result contains at most one entry per catalogue
parameter name (at most 15 entries), the entries appear in the fixed
catalogue order (their names form a sublist of the catalogue's names),
and each value match used is the leftmost occurrence of that
parameter's name-value-unit pattern: the search succeeds at its
reported position and fails at every earlier position. -/
theorem extraction_catalog_invariants (ctx : List Char) (l : List Entry)
    (h : _extract_medical_parameters ctx = .ok l) :
    (l.map Entry.name).Sublist (known_params.map ParamPattern.name)
      ∧ l.length ≤ 15
      ∧ (l.map Entry.name).Nodup
      ∧ ∀ p ∈ known_params, ∀ i g1 rest,
          findFrom (matchValueAt p) ctx = some (i, (g1, rest)) →
          matchValueAt p (ctx.drop i) = some (g1, rest)
            ∧ ∀ j, j < i → matchValueAt p (ctx.drop j) = none := by
  have hs := processParams_names_sublist known_params ctx l h
  have hnd : (known_params.map ParamPattern.name).Nodup := by decide
  refine ⟨hs, ?_, hs.nodup hnd, ?_⟩
  · have hle := hs.length_le
    rw [List.length_map, List.length_map] at hle
    have h15 : known_params.length = 15 := rfl
    omega
  · intro p _ i g1 rest hf
    exact findFrom_leftmost _ _ _ _ hf

theorem extraction_catalog_invariants_witness :
    _extract_medical_parameters "Hemoglobin: 13.5 g/dL no bounds".data = .ok []
      ∧ ((([] : List Entry).map Entry.name).Sublist
            (known_params.map ParamPattern.name)
        ∧ ([] : List Entry).length ≤ 15
        ∧ (([] : List Entry).map Entry.name).Nodup
        ∧ ∀ p ∈ known_params, ∀ i g1 rest,
            findFrom (matchValueAt p) "Hemoglobin: 13.5 g/dL no bounds".data
              = some (i, (g1, rest)) →
            matchValueAt p ("Hemoglobin: 13.5 g/dL no bounds".data.drop i)
              = some (g1, rest)
              ∧ ∀ j, j < i →
                  matchValueAt p ("Hemoglobin: 13.5 g/dL no bounds".data.drop j)
                    = none) :=
  ⟨rfl, extraction_catalog_invariants "Hemoglobin: 13.5 g/dL no bounds".data [] rfl⟩

/-- C3 counterexample: with text `"a b"`, `chunkSize = 2`, `overlap = 1`
the chunker strips each window, producing `["a", "b", "b"]`; the first
two chunks (neither of which is the final chunk) do not overlap by
exactly 1 character, and the space character of the original text is
covered by no chunk, so the claimed gap-free coverage also fails. -/
theorem chunk_overlap_claim_counterexample :
    chunk_text "a b".data 2 1 = .ok ["a".data, "b".data, "b".data]
      ∧ "a".data.drop ("a".data.length - 1) ≠ "b".data.take 1
      ∧ ' ' ∈ "a b".data
      ∧ ∀ c ∈ ["a".data, "b".data, "b".data], ' ' ∉ c :=
  ⟨rfl, by decide, by decide, by decide⟩

theorem ceil_div_lt_iff (len s j : Nat) (hs : 0 < s) :
    j < (len + s - 1) / s ↔ j * s < len := by
  constructor
  · intro hj
    have h1 : (j + 1) * s ≤ len + s - 1 :=
      (Nat.le_div_iff_mul_le hs).mp (Nat.succ_le_of_lt hj)
    rw [Nat.succ_mul] at h1
    omega
  · intro hj
    have h1 : (j + 1) * s ≤ len + s - 1 := by
      rw [Nat.succ_mul]; omega
    exact Nat.lt_of_succ_le ((Nat.le_div_iff_mul_le hs).mpr h1)

theorem chunk_text_no_space_eq (text : List Char) (cs ov : Nat) (hov : ov < cs)
    (hws : ∀ c ∈ text, isPySpace c = false) :
    chunk_text text cs ov
      = .ok ((List.range ((text.length + (cs - ov) - 1) / (cs - ov))).map
          (fun j => (text.drop (j * (cs - ov))).take cs)) := by
  have h1 : ¬ cs = ov := by omega
  have h2 : ¬ cs < ov := by omega
  have hstep : 0 < cs - ov := by omega
  simp only [chunk_text, if_neg h1, if_neg h2]
  congr 1
  have hmap : (List.range ((text.length + (cs - ov) - 1) / (cs - ov))).map
        (fun j => strip ((text.drop (j * (cs - ov))).take cs))
      = (List.range ((text.length + (cs - ov) - 1) / (cs - ov))).map
        (fun j => (text.drop (j * (cs - ov))).take cs) := by
    apply List.map_congr_left
    intro j _
    apply strip_eq_self
    intro c hc
    exact hws c ((List.drop_sublist _ _).subset ((List.take_sublist _ _).subset hc))
  rw [hmap]
  apply List.filter_eq_self.mpr
  intro a ha
  rw [List.mem_map] at ha
  obtain ⟨j, hj, rfl⟩ := ha
  rw [List.mem_range] at hj
  have hlt : j * (cs - ov) < text.length := (ceil_div_lt_iff _ _ _ hstep).mp hj
  have hne : (text.drop (j * (cs - ov))).take cs ≠ [] := by
    intro he
    have hle := congrArg List.length he
    rw [List.length_take, List.length_drop, List.length_nil] at hle
    omega
  simpa using hne

/-- C3 amended: for input text containing no whitespace and every valid
`(chunkSize, overlap)` with `overlap < chunkSize`, each returned chunk
is exactly its source window `text[j·step : j·step + chunkSize]`
(`step = chunkSize − overlap`), every character position of the text
lies inside some chunk's window (no gaps), and every pair of
consecutive chunks whose former member has the full length `chunkSize`
overlaps by exactly `overlap` characters; trailing truncated chunks
(not only the final one) may be shorter and then overlap by their whole
shorter length, and for whitespace-bearing text the code strips windows
and drops whitespace-only ones, so coverage and exact overlap can fail. -/
theorem chunk_coverage_overlap_amended (text : List Char) (cs ov : Nat)
    (hov : ov < cs) (hws : ∀ c ∈ text, isPySpace c = false) :
    ∃ L, chunk_text text cs ov = .ok L
      ∧ L.length = (text.length + (cs - ov) - 1) / (cs - ov)
      ∧ (∀ j, j < L.length →
          L[j]? = some ((text.drop (j * (cs - ov))).take cs))
      ∧ (∀ q, q < text.length →
          ∃ j, j < L.length ∧ j * (cs - ov) ≤ q ∧ q < j * (cs - ov) + cs)
      ∧ (∀ j a b, L[j]? = some a → L[j + 1]? = some b → a.length = cs →
          a.drop (cs - ov) = b.take ov ∧ (a.drop (cs - ov)).length = ov) := by
  have hstep : 0 < cs - ov := by omega
  refine ⟨_, chunk_text_no_space_eq text cs ov hov hws, ?_, ?_, ?_, ?_⟩
  · rw [List.length_map, List.length_range]
  · intro j hj
    rw [List.length_map, List.length_range] at hj
    rw [List.getElem?_map, List.getElem?_range hj]
    rfl
  · intro q hq
    refine ⟨q / (cs - ov), ?_, Nat.div_mul_le_self q _, ?_⟩
    · rw [List.length_map, List.length_range]
      exact (ceil_div_lt_iff _ _ _ hstep).mpr
        (lt_of_le_of_lt (Nat.div_mul_le_self q _) hq)
    · have h1 := Nat.div_add_mod q (cs - ov)
      have h2 : q % (cs - ov) < cs - ov := Nat.mod_lt _ hstep
      have h3 : cs - ov ≤ cs := by omega
      have h4 : (cs - ov) * (q / (cs - ov)) = q / (cs - ov) * (cs - ov) :=
        Nat.mul_comm _ _
      omega
  · intro j a b hja hjb hlen
    rw [List.getElem?_map] at hja hjb
    have hj1 : j + 1 < (text.length + (cs - ov) - 1) / (cs - ov) := by
      by_contra hge
      rw [List.getElem?_eq_none (by rw [List.length_range]; omega)] at hjb
      simp at hjb
    have hj0 : j < (text.length + (cs - ov) - 1) / (cs - ov) := by omega
    rw [List.getElem?_range hj0] at hja
    rw [List.getElem?_range hj1] at hjb
    simp only [Option.map_some', Option.some.injEq] at hja hjb
    subst hja
    subst hjb
    constructor
    · rw [List.drop_take, List.drop_drop, List.take_take]
      have e1 : cs - (cs - ov) = ov := by omega
      have e2 : j * (cs - ov) + (cs - ov) = (j + 1) * (cs - ov) := by ring
      have e3 : min ov cs = ov := by omega
      rw [e1, e2, e3]
    · rw [List.length_drop, hlen]
      omega

theorem chunk_coverage_overlap_amended_witness :
    ((1 : Nat) < 3 ∧ ∀ c ∈ "abcde".data, isPySpace c = false)
      ∧ ∃ L, chunk_text "abcde".data 3 1 = .ok L
        ∧ L.length = ("abcde".data.length + (3 - 1) - 1) / (3 - 1)
        ∧ (∀ j, j < L.length →
            L[j]? = some (("abcde".data.drop (j * (3 - 1))).take 3))
        ∧ (∀ q, q < "abcde".data.length →
            ∃ j, j < L.length ∧ j * (3 - 1) ≤ q ∧ q < j * (3 - 1) + 3)
        ∧ (∀ j a b, L[j]? = some a → L[j + 1]? = some b → a.length = 3 →
            a.drop (3 - 1) = b.take 1 ∧ (a.drop (3 - 1)).length = 1) :=
  ⟨⟨by decide, by decide⟩,
    chunk_coverage_overlap_amended "abcde".data 3 1 (by decide) (by decide)⟩
